import Mathlib

/-!
Shallow embedding of `src/main.py` (a contact-management tool: `Field` /
`Name` / `Phone` / `Birthday` validated values, `Record` contacts,
`AddressBook` mapping with command handlers and a pagination cursor),
together with theorems settling the specification claims.

Python conventions used throughout the embedding:
* Exceptions are modelled by `Except PyErr`; the `input_error` decorator
  catches exactly `KeyError`, `ValueError`, `TypeError` and
  `FileNotFoundError`, converting them to fixed message strings; any other
  exception (for example `AttributeError`) propagates out of the handler.
* Python `dict` (insertion-ordered) is an association list with unique keys;
  assigning to an existing key updates it in place, a new key is appended.
* `datetime.now()` is modelled as a single fixed instant passed in as an
  argument (the source calls it several times in one expression; the
  embedding treats those calls as the same instant).
-/

set_option autoImplicit false

deriving instance DecidableEq for Except

/-- Python exception kinds relevant to this program. -/
inductive PyErr where
  | keyError (msg : String)
  | valueError (msg : String)
  | typeError (msg : String)
  | fileNotFoundError (msg : String)
  | attributeError (msg : String)
  deriving DecidableEq, Repr

/-- Message produced by the `input_error` decorator for each caught kind;
`none` when the exception is not caught and propagates (src/main.py:93-105). -/
def inputErrorMsg : PyErr → Option String
  | .keyError _ => some "KeyError: The key you provided does not exist."
  | .valueError _ => some "ValueError: The value you provided is not valid."
  | .typeError _ => some "TypeError: The function you called is missing required arguments."
  | .fileNotFoundError _ => some "FileNotFoundError: File with this name was not found."
  | .attributeError _ => none

/-- Modelled: CPython `str.isdigit` is true of characters whose Unicode
`Numeric_Type` is `Digit` or `Decimal`.  The table lists the decimal-digit
(general category Nd) ranges of the Basic Multilingual Plane together with
the digit-typed superscript, subscript, Ethiopic and enclosed digits.
Inclusive codepoint ranges. -/
def pyDigitRanges : List (Nat × Nat) :=
  [(0x30, 0x39), (0xB2, 0xB3), (0xB9, 0xB9), (0x660, 0x669), (0x6F0, 0x6F9),
   (0x7C0, 0x7C9), (0x966, 0x96F), (0x9E6, 0x9EF), (0xA66, 0xA6F),
   (0xAE6, 0xAEF), (0xB66, 0xB6F), (0xBE6, 0xBEF), (0xC66, 0xC6F),
   (0xCE6, 0xCEF), (0xD66, 0xD6F), (0xDE6, 0xDEF), (0xE50, 0xE59),
   (0xED0, 0xED9), (0xF20, 0xF29), (0x1040, 0x1049), (0x1090, 0x1099),
   (0x1369, 0x1371), (0x17E0, 0x17E9), (0x1810, 0x1819), (0x1946, 0x194F),
   (0x19D0, 0x19D9), (0x1A80, 0x1A89), (0x1A90, 0x1A99), (0x1B50, 0x1B59),
   (0x1BB0, 0x1BB9), (0x1C40, 0x1C49), (0x1C50, 0x1C59), (0x2070, 0x2070),
   (0x2074, 0x2079), (0x2080, 0x2089), (0x2460, 0x2468), (0x2474, 0x247C),
   (0x2488, 0x2490), (0x24F5, 0x24FD), (0x2776, 0x277E), (0x2780, 0x2788),
   (0x278A, 0x2792), (0xA620, 0xA629), (0xA8D0, 0xA8D9), (0xA900, 0xA909),
   (0xA9D0, 0xA9D9), (0xA9F0, 0xA9F9), (0xAA50, 0xAA59), (0xABF0, 0xABF9),
   (0xFF10, 0xFF19)]

/-- A single character counts as a digit for Python's `str.isdigit`. -/
def pyCharIsDigit (c : Char) : Bool :=
  pyDigitRanges.any (fun r => r.1 ≤ c.toNat && c.toNat ≤ r.2)

/-- Python `str.isdigit`: nonempty and every character digit-typed. -/
def pyStrIsDigit (s : String) : Bool :=
  !s.data.isEmpty && s.data.all pyCharIsDigit

/-- `Name.is_valid` (src/main.py:16-17 inherited): always true. -/
def Name.is_valid (_ : String) : Bool := true

/-- `Phone.is_valid` (src/main.py:35-36): `len(value) == 10 and value.isdigit()`. -/
def Phone.is_valid (value : String) : Bool :=
  value.data.length == 10 && pyStrIsDigit value

/-! ## Calendar model (Python `datetime`, proleptic Gregorian) -/

/-- Gregorian leap year (as used by Python `datetime`). -/
def isLeap (y : Int) : Bool :=
  y % 4 == 0 && (y % 100 != 0 || y % 400 == 0)

/-- Length of a month in a given year. -/
def daysInMonth (y : Int) (m : Nat) : Nat :=
  if m = 2 then (if isLeap y then 29 else 28)
  else if m = 4 ∨ m = 6 ∨ m = 9 ∨ m = 11 then 30
  else 31

/-- Day number of a proleptic-Gregorian date (days since 1970-01-01),
standard civil-from-days arithmetic. -/
def dayNumber (y : Int) (m d : Nat) : Int :=
  let y' : Int := if m ≤ 2 then y - 1 else y
  let era : Int := Int.fdiv y' 400
  let yoe : Int := y' - era * 400
  let mp : Int := (Int.ofNat m + 9) % 12
  let doy : Int := Int.fdiv (153 * mp + 2) 5 + Int.ofNat d - 1
  let doe : Int := yoe * 365 + Int.fdiv yoe 4 - Int.fdiv yoe 100 + doy
  era * 146097 + doe - 719468

/-- A Python `datetime`: date fields plus the time of day in microseconds. -/
structure Datetime where
  year : Int
  month : Nat
  day : Nat
  microOfDay : Nat
  deriving DecidableEq, Repr

/-- Microseconds in one day. -/
def microPerDay : Nat := 86400000000

/-- Well-formedness of a `Datetime` (ranges Python enforces). -/
def Datetime.WF (t : Datetime) : Prop :=
  1 ≤ t.year ∧ t.year ≤ 9999 ∧ 1 ≤ t.month ∧ t.month ≤ 12 ∧
  1 ≤ t.day ∧ t.day ≤ daysInMonth t.year t.month ∧ t.microOfDay < microPerDay

instance (t : Datetime) : Decidable t.WF := by
  unfold Datetime.WF; infer_instance

/-- Timestamp in microseconds since the epoch; Python `datetime` comparison
and subtraction agree with comparison and subtraction of timestamps. -/
def Datetime.ts (t : Datetime) : Int :=
  dayNumber t.year t.month t.day * (Int.ofNat microPerDay) + Int.ofNat t.microOfDay

/-- The constructor call `datetime(year, month, day)` (midnight): `none`
models the `ValueError` Python raises for out-of-range fields. -/
def mkDatetime (y : Int) (m d : Nat) : Option Datetime :=
  if 1 ≤ y ∧ y ≤ 9999 ∧ 1 ≤ m ∧ m ≤ 12 ∧ 1 ≤ d ∧ d ≤ daysInMonth y m then
    some ⟨y, m, d, 0⟩
  else none

/-- `(a - b).days` for Python datetimes: `timedelta` normalises with
`0 <= seconds < 86400`, so `.days` is the floor of the difference in days. -/
def tdDays (a b : Datetime) : Int :=
  Int.fdiv (a.ts - b.ts) (Int.ofNat microPerDay)

/-! ## Field (src/main.py:7-27), generic over the validation predicate that
the subclass dispatch selects. -/

/-- The state of a constructed `Field`: its stored (private) value. -/
structure FieldVal (α : Type) where
  value : α
  deriving DecidableEq, Repr

/-- `Field.__init__` (src/main.py:8-11): validates, storing the value on
success and raising `ValueError` (constructing nothing) otherwise. -/
def Field.init {α : Type} (valid : α → Bool) (value : α) :
    Except PyErr (FieldVal α) :=
  if valid value then .ok ⟨value⟩ else .error (.valueError "Invalid value")

/-- The `value` property setter (src/main.py:23-27): validates before
assigning, so a failing assignment leaves the stored value untouched and
signals `ValueError`. -/
def Field.set_value {α : Type} (valid : α → Bool) (f : FieldVal α) (value : α) :
    FieldVal α × Option PyErr :=
  if valid value then (⟨value⟩, none)
  else (f, some (.valueError "Invalid value"))

/-- A Python value as seen by `Birthday.is_valid`'s `isinstance` check. -/
inductive PyVal where
  | pstr (s : String)
  | pdt (d : Datetime)
  | pnone
  deriving DecidableEq, Repr

/-- `Birthday.is_valid` (src/main.py:40-41): `isinstance(value, datetime)`. -/
def Birthday.is_valid : PyVal → Bool
  | .pdt _ => true
  | _ => false

/-! ## Record (src/main.py:44-84).  A `Phone` object is its validated string
value; a `Birthday` is its `datetime` value. -/

/-- One contact: a `Name`, an ordered list of `Phone` values and an optional
`Birthday` (src/main.py:45-48). -/
structure Record where
  name : String
  phones : List String
  birthday : Option Datetime
  deriving DecidableEq, Repr

/-- `Record(name)` with no birthday (src/main.py:45-48); `Name` validation
always succeeds. -/
def Record.make (name : String) : Record := ⟨name, [], none⟩

/-- `Record.add_phone` (src/main.py:50-51): `Phone(phone_number)` validates,
raising `ValueError` on failure; on success the value is appended. -/
def Record.add_phone (r : Record) (phone_number : String) :
    Except PyErr Record :=
  if Phone.is_valid phone_number then
    .ok { r with phones := r.phones ++ [phone_number] }
  else .error (.valueError "Invalid value")

/-- `Record.remove_phone` (src/main.py:53-57): removes the first phone whose
value equals the argument; no-op when absent. -/
def Record.remove_phone (r : Record) (phone_number : String) : Record :=
  { r with phones :=
      match r.phones.indexOf? phone_number with
      | some i => r.phones.eraseIdx i
      | none => r.phones }

/-- `Record.edit_phone` on the phone list (src/main.py:59-65): the first
phone equal to `old` has its value set to validated `new` (the setter raises
`ValueError` for an invalid `new`); with no match the `for`-`else` raises
`ValueError "The old phone number does not exist."`. -/
def editPhoneList (phones : List String) (old new : String) :
    Except PyErr (List String) :=
  match phones with
  | [] => .error (.valueError "The old phone number does not exist.")
  | p :: rest =>
    if p = old then
      if Phone.is_valid new then .ok (new :: rest)
      else .error (.valueError "Invalid value")
    else
      match editPhoneList rest old new with
      | .ok rest' => .ok (p :: rest')
      | .error e => .error e

/-- `Record.edit_phone` (src/main.py:59-65) at the record level; the phone
list is untouched when an error is raised. -/
def Record.edit_phone (r : Record) (old new : String) : Except PyErr Record :=
  match editPhoneList r.phones old new with
  | .ok ps => .ok { r with phones := ps }
  | .error e => .error e

/-- `Record.find_phone` (src/main.py:67-70): first phone with the given
value, or `None`. -/
def Record.find_phone (r : Record) (phone_number : String) : Option String :=
  r.phones.find? (· = phone_number)

/-- `Record.days_to_birthday` (src/main.py:72-80).  `None` without a
birthday; otherwise builds midnight of the birthday's month/day in the
current year, rolls to the next year when `now` is strictly later, and
returns `(next_birthday - now).days`.  The `datetime(...)` constructor can
raise `ValueError` (e.g. Feb 29 in a non-leap year). -/
def Record.days_to_birthday (r : Record) (now : Datetime) :
    Except PyErr (Option Int) :=
  match r.birthday with
  | none => .ok none
  | some b =>
    match mkDatetime now.year b.month b.day with
    | none => .error (.valueError "day is out of range for month")
    | some nb =>
      if now.ts > nb.ts then
        match mkDatetime (now.year + 1) b.month b.day with
        | none => .error (.valueError "day is out of range for month")
        | some nb2 => .ok (some (tdDays nb2 now))
      else .ok (some (tdDays nb now))

/-! ## Python string splitting (`str.split`) -/

/-- Python whitespace for `str.split` (the characters relevant to
line-oriented input). -/
def pyIsSpace (c : Char) : Bool :=
  c = ' ' ∨ c = '\t' ∨ c = '\n' ∨ c = '\x0b' ∨ c = '\x0c' ∨ c = '\r'

/-- Drop leading whitespace. -/
def dropWs : List Char → List Char
  | [] => []
  | c :: cs => if pyIsSpace c then dropWs cs else c :: cs

/-- Split off the next whitespace-delimited token. -/
def takeTok : List Char → List Char × List Char
  | [] => ([], [])
  | c :: cs =>
    if pyIsSpace c then ([], c :: cs)
    else
      let (t, rest) := takeTok cs
      (c :: t, rest)

/-- `str.split(maxsplit=k)` on the character list: leading whitespace is
skipped; after `k` splits the remainder (from the first non-whitespace
character) is kept verbatim. -/
def pySplitMaxAux (k : Nat) (cs : List Char) : List (List Char) :=
  match dropWs cs with
  | [] => []
  | c :: rest =>
    match k with
    | 0 => [c :: rest]
    | k' + 1 =>
      (takeTok (c :: rest)).1 :: pySplitMaxAux k' (takeTok (c :: rest)).2

/-- `str.split(maxsplit=k)`. -/
def pySplitMax (s : String) (k : Nat) : List String :=
  (pySplitMaxAux k s.data).map (fun cs => String.mk cs)

/-- `str.split()` (unbounded): with at most `len` characters there can be at
most `len` splits, so a fuel of the string length is exact. -/
def pySplit (s : String) : List String :=
  pySplitMax s s.data.length

/-! ## `datetime.strptime` for the three accepted formats
(`%d-%m-%Y`, `%d %m %Y`, `%d/%m/%Y`), as in src/main.py:127 and 192.
CPython compiles `%d` to the regex `3[01]|[12]\d|0[1-9]|[1-9]`, `%m` to
`1[0-2]|0[1-9]|[1-9]`, `%Y` to `\d\d\d\d`, a literal to itself and a
whitespace character to `\s+`; the whole string must be consumed, and the
resulting fields must form a valid date. -/

/-- Numeric value of an ASCII digit character, junk elsewhere. -/
def digitVal (c : Char) : Nat := c.toNat - '0'.toNat

/-- ASCII decimal digit (`[0-9]`, codepoints 0x30-0x39). -/
def isAsciiDigit (c : Char) : Bool := 0x30 ≤ c.toNat && c.toNat ≤ 0x39

/-- The separator between fields: a literal character, or a nonempty
whitespace run for a space in the format. -/
def parseSep (sep : Char) (cs : List Char) : Option (List Char) :=
  if sep = ' ' then
    match cs with
    | c :: rest => if pyIsSpace c then some (dropWs rest) else none
    | [] => none
  else
    match cs with
    | c :: rest => if c = sep then some rest else none
    | [] => none

/-- `%d` / `%m` with regex alternation semantics: a two-digit reading is
preferred, then one digit, then (for `%d` only, `spacePad`) a space-padded
single digit; the caller backtracks through the candidates in this order
when the continuation fails.  CPython compiles `%d` to
`3[0-1]|[1-2]\d|0[1-9]|[1-9]| [1-9]` and `%m` to `1[0-2]|0[1-9]|[1-9]`. -/
def parseNum2 (lo hi : Nat) (spacePad : Bool) (cs : List Char) :
    List (Nat × List Char) :=
  match cs with
  | c1 :: c2 :: rest =>
    let two :=
      if isAsciiDigit c1 && isAsciiDigit c2 then
        let v := digitVal c1 * 10 + digitVal c2
        if lo ≤ v ∧ v ≤ hi ∧ ¬(digitVal c1 = 0 ∧ digitVal c2 = 0) then
          [(v, rest)]
        else []
      else []
    let one :=
      if isAsciiDigit c1 ∧ 1 ≤ digitVal c1 then [(digitVal c1, c2 :: rest)]
      else []
    let sp :=
      if spacePad ∧ c1 = ' ' ∧ isAsciiDigit c2 ∧ 1 ≤ digitVal c2 then
        [(digitVal c2, rest)]
      else []
    two ++ one ++ sp
  | [c1] =>
    if isAsciiDigit c1 ∧ 1 ≤ digitVal c1 then [(digitVal c1, [])] else []
  | [] => []

/-- `%Y`: exactly four ASCII digits. -/
def parseYear4 (cs : List Char) : Option (Nat × List Char) :=
  match cs with
  | a :: b :: c :: d :: rest =>
    if isAsciiDigit a && isAsciiDigit b && isAsciiDigit c && isAsciiDigit d then
      some (digitVal a * 1000 + digitVal b * 100 + digitVal c * 10 + digitVal d,
            rest)
    else none
  | _ => none

/-- One format `%d<sep>%m<sep>%Y` against the whole string, including the
validity check performed when `strptime` builds the `datetime`. -/
def parseFmt (sep : Char) (s : String) : Option Datetime :=
  (parseNum2 1 31 true s.data).firstM (fun dr =>
    match parseSep sep dr.2 with
    | none => none
    | some afterSep1 =>
      (parseNum2 1 12 false afterSep1).firstM (fun mr =>
        match parseSep sep mr.2 with
        | none => none
        | some afterSep2 =>
          match parseYear4 afterSep2 with
          | some (y, []) => mkDatetime (Int.ofNat y) mr.1 dr.1
          | _ => none))

/-- The loop over the three formats, first success wins
(src/main.py:127-132 and 192-198). -/
def tryParseDate (s : String) : Option Datetime :=
  match parseFmt '-' s with
  | some d => some d
  | none =>
    match parseFmt ' ' s with
    | some d => some d
    | none => parseFmt '/' s

/-! ## AddressBook (src/main.py:87-246) -/

/-- An entry of a yielded page: `(name, [phone values])`. -/
abbrev PageEntry := String × List String

/-- Execution state of the generator object returned by
`AddressBook.iterator` (src/main.py:204-212): created but not started,
suspended at the `yield`, or finished (raising `StopIteration` forever). -/
inductive GenState where
  | fresh (n : Nat)
  | suspended
  | exhausted
  deriving DecidableEq, Repr

/-- The `AddressBook`: the `UserDict` mapping plus the pagination fields.
`iterator_instance = none` models both an absent attribute and `None`
(src/main.py:221 checks both the same way); `page_size` is only meaningful
once a generator has started. -/
structure AddressBook where
  data : List (String × Record)
  current_page : Nat
  page_size : Nat
  iterator_instance : Option GenState
  deriving DecidableEq, Repr

/-- A fresh `AddressBook()` (src/main.py:89-91). -/
def AddressBook.empty : AddressBook := ⟨[], 0, 0, none⟩

/-- `name in self.data`. -/
def dictMember (d : List (String × Record)) (k : String) : Bool :=
  d.any (·.1 = k)

/-- `self.data.get(name)` / `self.data[name]` as an option. -/
def dictGet (d : List (String × Record)) (k : String) : Option Record :=
  (d.find? (·.1 = k)).map (·.2)

/-- `self.data[k] = v`: updates the entry in place for an existing key,
appends for a new key (Python dicts keep insertion order). -/
def dictSet (d : List (String × Record)) (k : String) (v : Record) :
    List (String × Record) :=
  if dictMember d k then d.map (fun p => if p.1 = k then (k, v) else p)
  else d ++ [(k, v)]

/-- `del self.data[k]`: removes the (unique) entry with the key. -/
def dictDel (d : List (String × Record)) (k : String) :
    List (String × Record) :=
  d.eraseP (fun p => p.1 = k)

/-- Python `needle in hay` on strings: substring containment. -/
def pyInStr (needle hay : String) : Bool :=
  decide (needle.data <:+: hay.data)

/-- A handler's result: a message string, a `Record` (from `find`), or a
list of `(name, phones)` pairs (from `search` and pagination). -/
inductive Res where
  | str (s : String)
  | record (r : Record)
  | pairs (l : List PageEntry)
  | page (l : List PageEntry)
  deriving DecidableEq, Repr

/-- The `input_error` decorator (src/main.py:93-105) applied to a handler's
outcome: the four caught kinds become their message strings, anything else
(e.g. `AttributeError`) propagates. -/
def inputError (r : AddressBook × Except PyErr Res) :
    AddressBook × Except PyErr Res :=
  match r with
  | (bk, .error e) =>
    match inputErrorMsg e with
    | some m => (bk, .ok (.str m))
    | none => (bk, .error e)
  | ok => ok

/-- `AddressBook.add_record` (src/main.py:107-109):
`self.data[record.name.value] = record`. -/
def AddressBook.add_record (bk : AddressBook) (r : Record) : AddressBook :=
  { bk with data := dictSet bk.data r.name r }

/-- `AddressBook.days_to_birthday` (src/main.py:111-120), body before the
decorator; `now` stands for `datetime.now()`. -/
def AddressBook.days_to_birthday (bk : AddressBook) (name : String)
    (now : Datetime) : AddressBook × Except PyErr Res :=
  if dictMember bk.data name then
    match dictGet bk.data name with
    | some record =>
      match record.days_to_birthday now with
      | .error e => (bk, .error e)
      | .ok none => (bk, .ok (.str s!"{name} has no birthday information"))
      | .ok (some days) =>
        (bk, .ok (.str s!"There are {days} days left until {name} birthday"))
    | none => (bk, .error (.keyError name))
  else (bk, .ok (.str s!"Contact {name} not found"))

/-- `AddressBook.birthday_change` (src/main.py:122-137), body before the
decorator: `data.split(maxsplit=1)` must unpack into exactly two parts
(otherwise `ValueError`), then the multi-format parse; on success the
record's `birthday` attribute is replaced by a new (valid) `Birthday`. -/
def AddressBook.birthday_change (bk : AddressBook) (data : String) :
    AddressBook × Except PyErr Res :=
  match pySplitMax data 1 with
  | [name, birthday_str] =>
    if dictMember bk.data name then
      match tryParseDate birthday_str with
      | none => (bk, .ok (.str s!"Invalid date format for {name}"))
      | some birthday =>
        match dictGet bk.data name with
        | some record =>
          ({ bk with data :=
              dictSet bk.data name { record with birthday := some birthday } },
           .ok (.str s!"Added birthday to {name}"))
        | none => (bk, .error (.keyError name))
    else (bk, .ok (.str s!"Contact {name} not found"))
  | _ => (bk, .error (.valueError "not enough values to unpack"))

/-- `AddressBook.find` (src/main.py:139-144): the `Record` when the name is
a key, the not-found message string otherwise (never raises). -/
def AddressBook.find (bk : AddressBook) (name : String) : Res :=
  match dictGet bk.data name with
  | some r => .record r
  | none => .str s!"Contact {name} not found"

/-- `AddressBook.delete` (src/main.py:146-152). -/
def AddressBook.delete (bk : AddressBook) (name : String) :
    AddressBook × Res :=
  if dictMember bk.data name then
    ({ bk with data := dictDel bk.data name }, .str s!"Contact {name} deleted")
  else (bk, .str s!"Contact {name} does not exist")

/-- `AddressBook.edit_phone` (src/main.py:154-162), body before the
decorator.  `record = self.find(name)` is a `Record` when the name is
present and otherwise the nonempty (hence truthy) string
`"Contact {name} not found"`; in both cases `if record:` is taken, so for
an absent name `record.edit_phone(...)` is an attribute access on a `str`
and raises `AttributeError`, which `input_error` does not catch.  The
`else` branch returning `"The contact does not exist."` is unreachable. -/
def AddressBook.edit_phone (bk : AddressBook) (data : String) :
    AddressBook × Except PyErr Res :=
  match pySplit data with
  | [name, old_phone, new_phone] =>
    match dictGet bk.data name with
    | some record =>
      match record.edit_phone old_phone new_phone with
      | .ok r' =>
        ({ bk with data := dictSet bk.data name r' },
         .ok (.str s!"Phone number for {name} changed."))
      | .error e => (bk, .error e)
    | none =>
      (bk, .error (.attributeError
        "str object has no attribute edit_phone"))
  | _ => (bk, .error (.valueError "unpack"))

/-- `AddressBook.add_phone` (src/main.py:164-172), body before the
decorator: `data.split()` must unpack into exactly two parts, the phone is
validated by `Phone(phone_str)` (raising `ValueError` when invalid), and
`record.add_phone` appends it. -/
def AddressBook.add_phone (bk : AddressBook) (data : String) :
    AddressBook × Except PyErr Res :=
  match pySplit data with
  | [name, phone_str] =>
    if dictMember bk.data name then
      if Phone.is_valid phone_str then
        match dictGet bk.data name with
        | some record =>
          match record.add_phone phone_str with
          | .ok r' =>
            ({ bk with data := dictSet bk.data name r' },
             .ok (.str s!"Added phone number {phone_str} to contact {name}."))
          | .error e => (bk, .error e)
        | none => (bk, .error (.keyError name))
      else (bk, .error (.valueError "Invalid value"))
    else (bk, .ok (.str s!"Contact {name} dont found"))
  | _ => (bk, .error (.valueError "unpack"))

/-- `AddressBook.search` (src/main.py:174-180): substring match on the name
or any phone, insertion order, as `(name, phones)` pairs. -/
def AddressBook.search (bk : AddressBook) (query : String) : Res :=
  .pairs ((bk.data.filter (fun p =>
      pyInStr query p.1 || p.2.phones.any (fun ph => pyInStr query ph))).map
    (fun p => (p.1, p.2.phones)))

/-- `AddressBook.add_record_str` (src/main.py:182-202), body before the
decorator.  `data.split(maxsplit=2)` must provide at least two parts; an
existing name returns early without mutating; the phone is validated when
appended to the fresh record; with a third part present, the date parse
either sets the birthday and falls through to `add_record`, or — when no
format parses — returns the warning string WITHOUT reaching the
`self.add_record(record)` call on line 201. -/
def AddressBook.add_record_str (bk : AddressBook) (data : String) :
    AddressBook × Except PyErr Res :=
  match pySplitMax data 2 with
  | name :: phone :: rest =>
    if dictMember bk.data name then
      (bk, .ok (.str s!"Contact {name} already exists"))
    else
      match (Record.make name).add_phone phone with
      | .error e => (bk, .error e)
      | .ok record =>
        match rest with
        | birthday :: _ =>
          match tryParseDate birthday with
          | some birthday_datetime =>
            (bk.add_record { record with birthday := some birthday_datetime },
             .ok (.str s!"Contact {name} added"))
          | none =>
            (bk, .ok (.str (s!"Contact {name} added, but the birthday " ++
              "was entered incorrectly and was not saved")))
        | [] => (bk.add_record record, .ok (.str s!"Contact {name} added"))
  | _ => (bk, .error (.valueError "not enough values to unpack"))

/-! ### Pagination (src/main.py:204-227) -/

/-- The slice `list(self.data.items())[cp : cp + ps]` rendered as page
entries (src/main.py:209-211). -/
def pageAt (d : List (String × Record)) (cp ps : Nat) : List PageEntry :=
  ((d.drop cp).take ps).map (fun p => (p.1, p.2.phones))

/-- One `next()` on the stored generator: `none` models `StopIteration`.
The body runs `self.current_page = 0; self.page_size = n` on first entry,
then loops `while self.current_page < len(self.data)`, yielding a slice and
adding `page_size` on resumption (src/main.py:204-212). -/
def genNext (bk : AddressBook) : AddressBook × Option (List PageEntry) :=
  match bk.iterator_instance with
  | none => (bk, none)
  | some (.fresh n) =>
    if 0 < bk.data.length then
      ({ bk with current_page := 0, page_size := n,
                 iterator_instance := some .suspended },
       some (pageAt bk.data 0 n))
    else
      ({ bk with current_page := 0, page_size := n,
                 iterator_instance := some .exhausted }, none)
  | some .suspended =>
    let cp := bk.current_page + bk.page_size
    if cp < bk.data.length then
      ({ bk with current_page := cp, iterator_instance := some .suspended },
       some (pageAt bk.data cp bk.page_size))
    else
      ({ bk with current_page := cp, iterator_instance := some .exhausted },
       none)
  | some .exhausted => (bk, none)

/-- `AddressBook.start_iterator` (src/main.py:214-217): stores a fresh
generator, then `next(self.iterator_instance, "No more records.")` — the
default swallows `StopIteration` but leaves the (exhausted) generator
stored.  The `int(n)` conversion of the argument is modelled by taking `n`
as a natural number. -/
def AddressBook.start_iterator (bk : AddressBook) (n : Nat) :
    AddressBook × Res :=
  match genNext { bk with iterator_instance := some (.fresh n) } with
  | (bk2, some pg) => (bk2, .page pg)
  | (bk2, none) => (bk2, .str "No more records.")

/-- `AddressBook.next_page` (src/main.py:219-227): with no stored iterator,
the distinct call-show-first message; otherwise one `next()`, converting
`StopIteration` into the sentinel and clearing the iterator. -/
def AddressBook.next_page (bk : AddressBook) : AddressBook × Res :=
  match bk.iterator_instance with
  | none => (bk, .str "Error: call first comand -- show all")
  | some _ =>
    match genNext bk with
    | (bk2, some pg) => (bk2, .page pg)
    | (bk2, none) => ({ bk2 with iterator_instance := none },
                      .str "No more records.")

/-- The pages the generator yields, as chunks of the item list. -/
def chunks {α : Type} (P : Nat) (l : List α) : List (List α) :=
  match l with
  | [] => []
  | a :: rest =>
    if P = 0 then []
    else (a :: rest).take P :: chunks P ((a :: rest).drop P)
termination_by l.length
decreasing_by
  simp only [List.length_drop, List.length_cons]
  omega

/-- Iterate `next_page` some number of times from a (state, output) pair. -/
def stepNexts (s : AddressBook × Res) : Nat → AddressBook × Res
  | 0 => s
  | i + 1 => (stepNexts s i).1.next_page

/-- A book holding `d` with no cursor (the state before `show contacts`). -/
def showBook (d : List (String × Record)) : AddressBook := ⟨d, 0, 0, none⟩

/-- Output of step `i` of a pagination session over `d` with page size `P`:
step 0 is the `show contacts P` result, step `i ≥ 1` is the `i`-th
subsequent `next`. -/
def observe (d : List (String × Record)) (P i : Nat) : Res :=
  (stepNexts ((showBook d).start_iterator P) i).2

/-- The `AddressBook` state after step `i` of the same session. -/
def observeState (d : List (String × Record)) (P i : Nat) : AddressBook :=
  (stepNexts ((showBook d).start_iterator P) i).1

/-! ## Spec-side definitions and claim theorems -/

/-- The items slice the generator paginates, as `(name, phones)` pairs. -/
def bookItems (d : List (String × Record)) : List PageEntry :=
  d.map (fun p => (p.1, p.2.phones))

/-- The page decomposition the generator produces: successive `P`-chunks. -/
def bookPages (P : Nat) (d : List (String × Record)) : List (List PageEntry) :=
  chunks P (bookItems d)

/-- Every key of the mapping equals the name of the record it maps to. -/
def keysMatch (d : List (String × Record)) : Prop :=
  ∀ p ∈ d, p.2.name = p.1

/-- The commands the claim ranges over (`find`, `search` and
`days-to-birthday` are the queries; `daysToBirthday` carries the instant
`datetime.now()` returns during it). -/
inductive Op where
  | addContact (data : String)
  | addPhone (data : String)
  | editPhone (data : String)
  | setBirthday (data : String)
  | deleteContact (name : String)
  | findContact (name : String)
  | searchContacts (q : String)
  | daysToBirthday (name : String) (now : Datetime)
  | showContacts (n : Nat)
  | nextPage
  deriving DecidableEq, Repr

/-- State transition of one dispatched command (`find` and `search` are
pure queries; a propagating error leaves the state as the handler left
it). -/
def applyOp (bk : AddressBook) : Op → AddressBook
  | .addContact data => (inputError (bk.add_record_str data)).1
  | .addPhone data => (inputError (bk.add_phone data)).1
  | .editPhone data => (inputError (bk.edit_phone data)).1
  | .setBirthday data => (inputError (bk.birthday_change data)).1
  | .deleteContact name => (bk.delete name).1
  | .findContact _ => bk
  | .searchContacts _ => bk
  | .daysToBirthday name now => (inputError (bk.days_to_birthday name now)).1
  | .showContacts n => (bk.start_iterator n).1
  | .nextPage => bk.next_page.1

/-- A whole command sequence, left to right. -/
def runOps (bk : AddressBook) (ops : List Op) : AddressBook :=
  ops.foldl applyOp bk

/-- Book with the one contact Ann, for the concrete witnesses. -/
def annBook : AddressBook :=
  ⟨[("Ann", ⟨"Ann", ["1234567890"], none⟩)], 0, 0, none⟩

/-- Book with three contacts for the pagination witness. -/
def c5Book : List (String × Record) :=
  [("Ann", ⟨"Ann", ["1234567890"], none⟩),
   ("Bob", ⟨"Bob", ["2223334445"], none⟩),
   ("Cid", ⟨"Cid", ["5556667778"], none⟩)]

/-- The claim's reading of the phone rule (`^[0-9]{10}$`): exactly ten
characters, each an ASCII decimal digit.  Stated from the spec's words for
comparison against `Phone.is_valid`. -/
def asciiPhoneValid (s : String) : Bool :=
  s.data.length == 10 && s.data.all isAsciiDigit

/-- Every ASCII digit character is a Python digit character. -/
theorem ascii_digit_is_py_digit (c : Char) (h : isAsciiDigit c = true) :
    pyCharIsDigit c = true := by
  simp only [isAsciiDigit, Bool.and_eq_true, decide_eq_true_eq] at h
  simp only [pyCharIsDigit, List.any_eq_true]
  refine ⟨(0x30, 0x39), by decide, ?_⟩
  simp only [Bool.and_eq_true, decide_eq_true_eq]
  exact h

/-- C4 counterexample: the string of ten ARABIC-INDIC DIGIT ZERO characters
(U+0660) passes `Phone.is_valid` — Python's `str.isdigit` accepts non-ASCII
digit characters — yet does not match `^[0-9]{10}$`, so "exactly the
10-digit ASCII numeric strings succeed" is false. -/
theorem c4_counterexample :
    Phone.is_valid (String.mk (List.replicate 10 '٠')) = true ∧
    asciiPhoneValid (String.mk (List.replicate 10 '٠')) = false := by
  decide

/-- C4 (amended): a `Phone` value is valid iff the string has exactly ten
characters, each a Python digit character (`str.isdigit`) — a superset of
the ASCII digits; in particular every string matching `^[0-9]{10}$` does
validate. -/
theorem c4_phone_valid_amended (s : String) :
    (Phone.is_valid s = true ↔
      s.data.length = 10 ∧ ∀ c ∈ s.data, pyCharIsDigit c = true) ∧
    (asciiPhoneValid s = true → Phone.is_valid s = true) := by
  have hiff : Phone.is_valid s = true ↔
      s.data.length = 10 ∧ ∀ c ∈ s.data, pyCharIsDigit c = true := by
    simp only [Phone.is_valid, pyStrIsDigit, Bool.and_eq_true, beq_iff_eq,
      Bool.not_eq_true', List.all_eq_true]
    constructor
    · rintro ⟨h1, _, h3⟩
      exact ⟨h1, h3⟩
    · rintro ⟨h1, h3⟩
      refine ⟨h1, ?_, h3⟩
      cases hd : s.data with
      | nil => rw [hd] at h1; simp at h1
      | cons c cs => simp
  refine ⟨hiff, fun ha => ?_⟩
  rw [hiff]
  simp only [asciiPhoneValid, Bool.and_eq_true, beq_iff_eq,
    List.all_eq_true] at ha
  exact ⟨ha.1, fun c hc => ascii_digit_is_py_digit c (ha.2 c hc)⟩

/-- C4 witness: a concrete ten-ASCII-digit string validates. -/
theorem c4_witness : Phone.is_valid "0123456789" = true :=
  (c4_phone_valid_amended "0123456789").2 (by decide)

/-- C8: validated fields.  For any validation predicate (the one subclass
dispatch selects: `Name.is_valid`, `Phone.is_valid`, `Birthday.is_valid`),
construction succeeds exactly on valid values and a failed construction
yields no field; assigning an invalid value signals `ValueError` and keeps
the previously stored value, while a valid assignment stores the new one.
The last three conjuncts instantiate the schema at the `Name`, `Phone` and
`Birthday` validators. -/
theorem c8_field_invariant {α : Type} (valid : α → Bool) (v old new : α)
    (p_old p_new : String) (b_old b_new : PyVal) :
    (valid v = true → Field.init valid v = .ok ⟨v⟩) ∧
    (valid v = false →
      Field.init valid v = .error (.valueError "Invalid value")) ∧
    (valid new = true → Field.set_value valid ⟨old⟩ new = (⟨new⟩, none)) ∧
    (valid new = false →
      Field.set_value valid ⟨old⟩ new =
        (⟨old⟩, some (.valueError "Invalid value"))) ∧
    (∀ s : String, Field.init Name.is_valid s = .ok ⟨s⟩) ∧
    (Phone.is_valid p_new = false →
      Field.set_value Phone.is_valid ⟨p_old⟩ p_new =
        (⟨p_old⟩, some (.valueError "Invalid value"))) ∧
    (Birthday.is_valid b_new = false →
      Field.set_value Birthday.is_valid ⟨b_old⟩ b_new =
        (⟨b_old⟩, some (.valueError "Invalid value"))) := by
  refine ⟨?_, ?_, ?_, ?_, ?_, ?_, ?_⟩
  · intro h; simp [Field.init, h]
  · intro h; simp [Field.init, h]
  · intro h; simp [Field.set_value, h]
  · intro h; simp [Field.set_value, h]
  · intro s; simp [Field.init, Name.is_valid]
  · intro h; simp [Field.set_value, h]
  · intro h; simp [Field.set_value, h]

/-- C8 witness: constructing a `Phone` from an invalid string raises. -/
theorem c8_witness :
    Field.init Phone.is_valid "12345" = .error (.valueError "Invalid value") :=
  (c8_field_invariant Phone.is_valid "12345" "" "" "" "" .pnone .pnone).2.1
    (by decide)

/-- C7: `add contact` whose name token is already a key returns the
already-exists message and leaves the whole book unchanged. -/
theorem c7_add_existing (bk : AddressBook) (data name phone : String)
    (rest : List String)
    (hsplit : pySplitMax data 2 = name :: phone :: rest)
    (hmem : dictMember bk.data name = true) :
    inputError (AddressBook.add_record_str bk data) =
      (bk, .ok (.str s!"Contact {name} already exists")) := by
  unfold AddressBook.add_record_str
  rw [hsplit]
  simp [hmem, inputError]

/-- C7 witness at a concrete book and command. -/
theorem c7_witness :
    inputError (AddressBook.add_record_str annBook "Ann 0000000000") =
      (annBook, .ok (.str "Contact Ann already exists")) := by
  have h := c7_add_existing annBook "Ann 0000000000" "Ann" "0000000000" []
    (by decide) (by decide)
  exact h.trans (by decide)

/-- C2 (code bug): with a fresh name, a valid phone and a birthday text no
format parses, `add contact` returns the warning string but does NOT add
the contact: the early `return` on src/main.py:200 skips
`self.add_record(record)` on line 201, so the book comes back unchanged —
contradicting the claim and the message text "Contact {name} added". -/
theorem c2_unparsed_birthday_not_added (bk : AddressBook)
    (data name phone bday : String)
    (hsplit : pySplitMax data 2 = [name, phone, bday])
    (hfresh : dictMember bk.data name = false)
    (hphone : Phone.is_valid phone = true)
    (hbad : tryParseDate bday = none) :
    inputError (AddressBook.add_record_str bk data) =
      (bk, .ok (.str (s!"Contact {name} added, but the birthday " ++
        "was entered incorrectly and was not saved"))) := by
  unfold AddressBook.add_record_str
  rw [hsplit]
  simp [hfresh, Record.add_phone, Record.make, hphone, hbad, inputError]

/-- C2 witness: concrete invocation showing the unchanged book. -/
theorem c2_witness :
    inputError (AddressBook.add_record_str AddressBook.empty
        "Ann 1234567890 abc") =
      (AddressBook.empty,
       .ok (.str ("Contact Ann added, but the birthday was entered " ++
         "incorrectly and was not saved"))) := by
  have h := c2_unparsed_birthday_not_added AddressBook.empty
    "Ann 1234567890 abc" "Ann" "1234567890" "abc" (by decide) (by decide)
    (by decide) (by decide)
  exact h.trans (by decide)

/-- C1 (code bug): `edit phone` with an absent name does not return the
"contact does not exist" string; `find` hands back the truthy not-found
message string, attribute access `record.edit_phone` on a `str` raises
`AttributeError`, and `input_error` does not catch that kind, so the error
propagates unhandled (src/main.py:161-162 is dead code). -/
theorem c1_edit_phone_absent_uncaught (bk : AddressBook)
    (data name old_phone new_phone : String)
    (hsplit : pySplit data = [name, old_phone, new_phone])
    (habs : dictGet bk.data name = none) :
    inputError (AddressBook.edit_phone bk data) =
      (bk, .error (.attributeError
        "str object has no attribute edit_phone")) := by
  unfold AddressBook.edit_phone
  rw [hsplit]
  simp [habs, inputError, inputErrorMsg]

/-- C1 witness: concrete crashing invocation on the empty book. -/
theorem c1_witness :
    inputError (AddressBook.edit_phone AddressBook.empty
        "Bob 1234567890 0987654321") =
      (AddressBook.empty,
       .error (.attributeError "str object has no attribute edit_phone")) := by
  have h := c1_edit_phone_absent_uncaught AddressBook.empty
    "Bob 1234567890 0987654321" "Bob" "1234567890" "0987654321"
    (by decide) (by decide)
  exact h.trans (by decide)

/-- `find?` with an equality predicate finds the sought value itself. -/
theorem list_find_eq_self (l : List String) (a : String) (h : a ∈ l) :
    l.find? (· = a) = some a := by
  induction l with
  | nil => simp at h
  | cons b t ih =>
    by_cases hb : b = a
    · subst hb
      exact List.find?_cons_of_pos _ (by simp)
    · have ht : a ∈ t := by
        rcases List.mem_cons.mp h with h1 | h1
        · exact absurd h1.symm hb
        · exact h1
      rw [List.find?_cons_of_neg _ (by simp [hb]), ih ht]

/-- `find?` with an equality predicate fails exactly off the list. -/
theorem list_find_eq_none (l : List String) (a : String) (h : a ∉ l) :
    l.find? (· = a) = none := by
  rw [List.find?_eq_none]
  intro x hx
  simp only [decide_eq_true_eq]
  intro he
  exact h (he ▸ hx)

/-- Replacement step of `Record.edit_phone`: the first occurrence of `old`
is overwritten by a valid `new`. -/
theorem editPhoneList_replace (old new : String)
    (hnew : Phone.is_valid new = true) :
    ∀ l1 l2 : List String, old ∉ l1 →
      editPhoneList (l1 ++ old :: l2) old new = .ok (l1 ++ new :: l2) := by
  intro l1
  induction l1 with
  | nil =>
    intro l2 _
    simp [editPhoneList, hnew]
  | cons p t ih =>
    intro l2 hold
    have hp : ¬ p = old := fun e => hold (by rw [e]; exact List.mem_cons_self _ _)
    have ht : old ∉ t := fun hm => hold (List.mem_cons_of_mem _ hm)
    simp only [List.cons_append, editPhoneList, List.append_eq]
    rw [if_neg hp, ih l2 ht]

/-- With no occurrence of `old`, `Record.edit_phone`'s loop falls through to
the `else` clause and raises. -/
theorem editPhoneList_not_found (old new : String) :
    ∀ l : List String, old ∉ l →
      editPhoneList l old new =
        .error (.valueError "The old phone number does not exist.") := by
  intro l
  induction l with
  | nil => intro _; rfl
  | cons p t ih =>
    intro h
    have hp : ¬ p = old := fun e => h (by rw [e]; exact List.mem_cons_self _ _)
    have ht : old ∉ t := fun hm => h (List.mem_cons_of_mem _ hm)
    simp only [editPhoneList]
    rw [if_neg hp, ih ht]

/-- C6: `edit_phone` on a record holding `old` (first occurrence after the
prefix `l1`) with a valid `new` replaces exactly that occurrence; on the
result `find_phone new` succeeds, and when `old ≠ new` occurred exactly
once, `find_phone old` fails.  With no phone equal to `old` it raises the
not-found `ValueError` (performing no mutation: the error carries no
modified record). -/
theorem c6_edit_phone (r : Record) (old new : String)
    (hnew : Phone.is_valid new = true) :
    (∀ l1 l2, r.phones = l1 ++ old :: l2 → old ∉ l1 →
      Record.edit_phone r old new = .ok { r with phones := l1 ++ new :: l2 } ∧
      Record.find_phone { r with phones := l1 ++ new :: l2 } new = some new ∧
      (old ≠ new → old ∉ l2 →
        Record.find_phone { r with phones := l1 ++ new :: l2 } old = none)) ∧
    (old ∉ r.phones →
      Record.edit_phone r old new =
        .error (.valueError "The old phone number does not exist.")) := by
  constructor
  · intro l1 l2 hsp hnl
    refine ⟨?_, ?_, ?_⟩
    · unfold Record.edit_phone
      rw [hsp, editPhoneList_replace old new hnew l1 l2 hnl]
    · unfold Record.find_phone
      exact list_find_eq_self _ new
        (List.mem_append_right _ (List.mem_cons_self _ _))
    · intro hne hnl2
      unfold Record.find_phone
      apply list_find_eq_none
      intro hmem
      rcases List.mem_append.mp hmem with h1 | h1
      · exact hnl h1
      · rcases List.mem_cons.mp h1 with h2 | h2
        · exact hne h2
        · exact hnl2 h2
  · intro h
    unfold Record.edit_phone
    rw [editPhoneList_not_found old new r.phones h]

/-- C6 witness: replacing the first of two phones in a concrete record. -/
theorem c6_witness :
    Record.edit_phone ⟨"Ann", ["1234567890", "5556667778"], none⟩
        "1234567890" "0987654321" =
      .ok ⟨"Ann", ["0987654321", "5556667778"], none⟩ ∧
    Record.find_phone ⟨"Ann", ["0987654321", "5556667778"], none⟩
        "1234567890" = none := by
  have h := (c6_edit_phone ⟨"Ann", ["1234567890", "5556667778"], none⟩
    "1234567890" "0987654321" (by decide)).1 [] ["5556667778"]
    (by decide) (by decide)
  exact ⟨h.1.trans (by decide), ((h.2.2 (by decide) (by decide)).symm.trans
    (by decide)).symm⟩

/-- C3 counterexample: birthday 1990-05-10; at noon on 10 May 2023 — today's
month/day equal to the birthday's — the code evaluates
`datetime.now() > datetime(2023, 5, 10)` (midnight), which is true, so it
rolls to 2024-05-10 and returns 365, not 0. -/
theorem c3_counterexample :
    Record.days_to_birthday ⟨"Ann", [], some ⟨1990, 5, 10, 0⟩⟩
        ⟨2023, 5, 10, 43200000000⟩ = .ok (some 365) ∧
    Record.days_to_birthday ⟨"Ann", [], some ⟨1990, 5, 10, 0⟩⟩
        ⟨2023, 5, 10, 43200000000⟩ ≠ .ok (some 0) := by
  constructor
  · decide
  · decide

/-- C3 (amended): the comparison is against MIDNIGHT of the birthday's
month/day at full datetime precision.  The count is 0 (next occurrence this
year) when `now` is exactly that midnight; whenever `now` is strictly later
than this year's midnight occurrence — including any time after midnight on
the birthday itself — it rolls to the next year's occurrence, returning the
floor of the difference in days; when `now` is at or before this year's
midnight occurrence the count is the floor day distance to it. -/
theorem c3_days_to_birthday_amended (r : Record) (b now : Datetime)
    (hb : r.birthday = some b)
    (hy1 : 1 ≤ now.year) (hy2 : now.year + 1 ≤ 9999)
    (hm1 : 1 ≤ b.month) (hm2 : b.month ≤ 12)
    (hd1 : 1 ≤ b.day) (hd2 : b.day ≤ daysInMonth now.year b.month)
    (hd3 : b.day ≤ daysInMonth (now.year + 1) b.month) :
    (now = ⟨now.year, b.month, b.day, 0⟩ →
      Record.days_to_birthday r now = .ok (some 0)) ∧
    (now.ts > (⟨now.year, b.month, b.day, 0⟩ : Datetime).ts →
      Record.days_to_birthday r now =
        .ok (some (tdDays ⟨now.year + 1, b.month, b.day, 0⟩ now))) ∧
    (now.ts ≤ (⟨now.year, b.month, b.day, 0⟩ : Datetime).ts →
      Record.days_to_birthday r now =
        .ok (some (tdDays ⟨now.year, b.month, b.day, 0⟩ now))) := by
  have hmk1 : mkDatetime now.year b.month b.day =
      some ⟨now.year, b.month, b.day, 0⟩ := by
    unfold mkDatetime
    rw [if_pos]
    exact ⟨hy1, by omega, hm1, hm2, hd1, hd2⟩
  have hmk2 : mkDatetime (now.year + 1) b.month b.day =
      some ⟨now.year + 1, b.month, b.day, 0⟩ := by
    unfold mkDatetime
    rw [if_pos]
    exact ⟨by omega, hy2, hm1, hm2, hd1, hd3⟩
  have hthird : now.ts ≤ (⟨now.year, b.month, b.day, 0⟩ : Datetime).ts →
      Record.days_to_birthday r now =
        .ok (some (tdDays ⟨now.year, b.month, b.day, 0⟩ now)) := by
    intro h
    unfold Record.days_to_birthday
    rw [hb]
    simp only [hmk1]
    rw [if_neg (by omega)]
  refine ⟨?_, ?_, hthird⟩
  · intro hnow
    have h0 := hthird (le_of_eq (by rw [hnow]))
    rw [h0, ← hnow]
    have : tdDays now now = 0 := by
      unfold tdDays
      rw [sub_self]
      simp [Int.zero_fdiv]
    rw [this]
  · intro h
    unfold Record.days_to_birthday
    rw [hb]
    simp only [hmk1]
    rw [if_pos h]
    simp only [hmk2]

/-- C3 amended-claim witness: birthday midnight exactly gives 0 days. -/
theorem c3_witness :
    Record.days_to_birthday ⟨"Ann", [], some ⟨1990, 3, 15, 0⟩⟩
        ⟨2023, 3, 15, 0⟩ = .ok (some 0) :=
  (c3_days_to_birthday_amended ⟨"Ann", [], some ⟨1990, 3, 15, 0⟩⟩
    ⟨1990, 3, 15, 0⟩ ⟨2023, 3, 15, 0⟩ rfl (by decide) (by decide) (by decide)
    (by decide) (by decide) (by decide) (by decide)).1 rfl

/-! ## Pagination lemmas (claims C5 and C10) -/

theorem chunks_nil {α : Type} (P : Nat) : chunks P ([] : List α) = [] := by
  rw [chunks.eq_def]

theorem chunks_cons {α : Type} (P : Nat) (hP : 0 < P) (a : α) (rest : List α) :
    chunks P (a :: rest) =
      (a :: rest).take P :: chunks P ((a :: rest).drop P) := by
  rw [chunks.eq_def]
  simp [Nat.pos_iff_ne_zero.mp hP]

theorem chunks_flatten_fuel {α : Type} (P : Nat) (hP : 0 < P) :
    ∀ (n : Nat) (l : List α), l.length ≤ n → (chunks P l).flatten = l := by
  intro n
  induction n with
  | zero =>
    intro l hl
    have h0 : l = [] := List.length_eq_zero.mp (Nat.le_zero.mp hl)
    subst h0
    rw [chunks_nil]
    rfl
  | succ n ih =>
    intro l hl
    match l with
    | [] => rw [chunks_nil]; rfl
    | a :: rest =>
      rw [chunks_cons P hP, List.flatten_cons,
        ih ((a :: rest).drop P)
          (by simp only [List.length_drop, List.length_cons]
              simp only [List.length_cons] at hl
              omega)]
      exact List.take_append_drop ..

theorem chunks_length_fuel {α : Type} (P : Nat) (hP : 0 < P) :
    ∀ (n : Nat) (l : List α), l.length ≤ n →
      (chunks P l).length = (l.length + P - 1) / P := by
  intro n
  induction n with
  | zero =>
    intro l hl
    have h0 : l = [] := List.length_eq_zero.mp (Nat.le_zero.mp hl)
    subst h0
    rw [chunks_nil]
    simp only [List.length_nil]
    rw [Nat.div_eq_of_lt (by omega)]
  | succ n ih =>
    intro l hl
    match l with
    | [] =>
      rw [chunks_nil]
      simp only [List.length_nil]
      rw [Nat.div_eq_of_lt (by omega)]
    | a :: rest =>
      simp only [List.length_cons] at hl
      rw [chunks_cons P hP]
      simp only [List.length_cons]
      rw [ih ((a :: rest).drop P)
        (by simp only [List.length_drop, List.length_cons]; omega)]
      simp only [List.length_drop, List.length_cons]
      by_cases hPl : P ≤ rest.length + 1
      · have h1 : rest.length + 1 + P - 1 = (rest.length + 1 - P + P - 1) + P := by
          omega
        rw [h1, Nat.add_div_right _ hP]
      · have h2 : rest.length + 1 - P = 0 := by omega
        rw [h2, Nat.div_eq_of_lt (show 0 + P - 1 < P by omega)]
        have h3 : rest.length + 1 + P - 1 = rest.length + P := by omega
        rw [h3, Nat.add_div_right _ hP, Nat.div_eq_of_lt (by omega)]

theorem lt_chunks_length_fuel {α : Type} (P : Nat) (hP : 0 < P) :
    ∀ (n : Nat) (l : List α) (k : Nat), l.length ≤ n →
      (k < (chunks P l).length ↔ k * P < l.length) := by
  intro n
  induction n with
  | zero =>
    intro l k hl
    have h0 : l = [] := List.length_eq_zero.mp (Nat.le_zero.mp hl)
    subst h0
    rw [chunks_nil]
    simp
  | succ n ih =>
    intro l k hl
    match l with
    | [] => rw [chunks_nil]; simp
    | a :: rest =>
      simp only [List.length_cons] at hl
      rw [chunks_cons P hP]
      simp only [List.length_cons]
      match k with
      | 0 =>
        simp only [Nat.zero_mul]
        omega
      | k' + 1 =>
        have hrec := ih ((a :: rest).drop P) k'
          (by simp only [List.length_drop, List.length_cons]; omega)
        simp only [List.length_drop, List.length_cons] at hrec
        rw [Nat.succ_mul]
        constructor
        · intro h
          have h2 := hrec.mp (by omega)
          generalize hq : k' * P = q at h2 ⊢
          omega
        · intro h
          have h2 : k' * P < rest.length + 1 - P := by
            generalize hq : k' * P = q at h ⊢
            omega
          have h1 := hrec.mpr h2
          omega

theorem chunks_getD_fuel {α : Type} (P : Nat) (hP : 0 < P) :
    ∀ (n : Nat) (l : List α) (k : Nat), l.length ≤ n → k * P < l.length →
      (chunks P l).getD k [] = (l.drop (k * P)).take P := by
  intro n
  induction n with
  | zero =>
    intro l k hl hk
    have h0 : l = [] := List.length_eq_zero.mp (Nat.le_zero.mp hl)
    subst h0
    simp at hk
  | succ n ih =>
    intro l k hl hk
    match l with
    | [] => simp at hk
    | a :: rest =>
      simp only [List.length_cons] at hl
      rw [chunks_cons P hP]
      match k with
      | 0 => simp
      | k' + 1 =>
        simp only [List.length_cons, Nat.succ_mul] at hk
        have hk' : k' * P < ((a :: rest).drop P).length := by
          simp only [List.length_drop, List.length_cons]
          generalize hq : k' * P = q at hk ⊢
          omega
        rw [List.getD_cons_succ,
          ih ((a :: rest).drop P) k'
            (by simp only [List.length_drop, List.length_cons]; omega) hk',
          List.drop_drop]
        congr 1
        rw [Nat.succ_mul, Nat.add_comm]

theorem chunks_sizes_fuel {α : Type} (P : Nat) (hP : 0 < P) :
    ∀ (n : Nat) (l : List α), l.length ≤ n →
      (∀ pg ∈ (chunks P l).dropLast, pg.length = P) ∧
      (∀ pg, (chunks P l).getLast? = some pg →
        0 < pg.length ∧ pg.length ≤ P) := by
  intro n
  induction n with
  | zero =>
    intro l hl
    have h0 : l = [] := List.length_eq_zero.mp (Nat.le_zero.mp hl)
    subst h0
    rw [chunks_nil]
    constructor
    · simp
    · simp
  | succ n ih =>
    intro l hl
    match l with
    | [] =>
      rw [chunks_nil]
      constructor
      · simp
      · simp
    | a :: rest =>
      simp only [List.length_cons] at hl
      rw [chunks_cons P hP]
      obtain ⟨ih1, ih2⟩ := ih ((a :: rest).drop P)
        (by simp only [List.length_drop, List.length_cons]; omega)
      cases hc : chunks P ((a :: rest).drop P) with
      | nil =>
        constructor
        · simp [List.dropLast_single]
        · intro pg hpg
          rw [List.getLast?_singleton] at hpg
          cases hpg
          constructor
          · simp only [List.length_take, List.length_cons]
            omega
          · simp only [List.length_take, List.length_cons]
            omega
      | cons c cs =>
        have hne : (a :: rest).drop P ≠ [] := by
          intro h0
          rw [h0, chunks_nil] at hc
          cases hc
        have hlen : P < rest.length + 1 := by
          by_contra hh
          exact hne (List.drop_eq_nil_of_le
            (by simp only [List.length_cons]; omega))
        constructor
        · intro pg hpg
          rw [List.dropLast_cons₂] at hpg
          rcases List.mem_cons.mp hpg with h1 | h1
          · subst h1
            simp only [List.length_take, List.length_cons]
            omega
          · exact ih1 pg (by rw [hc]; exact h1)
        · intro pg hpg
          rw [List.getLast?_cons_cons] at hpg
          exact ih2 pg (by rw [hc]; exact hpg)

/-- `show contacts` behaves the same on any cursor state: the handler
overwrites `iterator_instance` before the first `next()`. -/
theorem start_iterator_fresh (bk : AddressBook) (P : Nat) :
    AddressBook.start_iterator bk P =
      AddressBook.start_iterator (showBook bk.data) P := by
  cases bk with
  | mk d cp ps it =>
    unfold AddressBook.start_iterator genNext showBook
    by_cases h : 0 < d.length
    · simp [h]
    · simp [h]

/-- While pages remain, step `j` of a session is the suspended generator at
offset `j * P` having just yielded the `j`-th slice. -/
theorem c5_state_during (d : List (String × Record)) (P : Nat) :
    ∀ j : Nat, j * P < d.length →
      stepNexts (AddressBook.start_iterator (showBook d) P) j =
        (⟨d, j * P, P, some .suspended⟩, .page (pageAt d (j * P) P)) := by
  intro j
  induction j with
  | zero =>
    intro hj
    simp only [Nat.zero_mul] at hj ⊢
    show AddressBook.start_iterator (showBook d) P = _
    unfold AddressBook.start_iterator genNext showBook
    simp [hj]
  | succ j ih =>
    intro hj
    have hj' : j * P < d.length :=
      lt_of_le_of_lt (Nat.mul_le_mul_right P (Nat.le_succ j)) hj
    show (stepNexts (AddressBook.start_iterator (showBook d) P) j).1.next_page = _
    rw [ih hj']
    unfold AddressBook.next_page genNext
    simp only []
    rw [Nat.succ_mul] at hj
    simp [hj, Nat.succ_mul]

/-- Runs compose: `a + b` next-steps are `b` further steps after `a`. -/
theorem stepNexts_add (s : AddressBook × Res) (a b : Nat) :
    stepNexts s (a + b) = stepNexts (stepNexts s a) b := by
  induction b with
  | zero => rfl
  | succ b ih =>
    show (stepNexts s (a + b)).1.next_page = _
    rw [ih]
    rfl

/-- Once the iterator is cleared, every further `next` returns the
call-show-first message and changes nothing. -/
theorem stepNexts_dead (bk : AddressBook) (r : Res)
    (h : bk.iterator_instance = none) :
    ∀ k, 1 ≤ k → stepNexts (bk, r) k =
      (bk, .str "Error: call first comand -- show all") := by
  intro k
  induction k with
  | zero => intro h0; omega
  | succ k ih =>
    intro _
    show (stepNexts (bk, r) k).1.next_page = _
    cases Nat.eq_zero_or_pos k with
    | inl h0 =>
      subst h0
      show bk.next_page = _
      unfold AddressBook.next_page
      rw [h]
    | inr hk =>
      rw [ih hk]
      show bk.next_page = _
      unfold AddressBook.next_page
      rw [h]

/-- The step just past the last page: `next` hits `StopIteration`, returns
the sentinel once and clears the iterator. -/
theorem c5_state_sentinel (d : List (String × Record)) (P : Nat)
    (L : Nat) (hL1 : 0 < L)
    (hlast : (L - 1) * P < d.length) (hdone : ¬ L * P < d.length) :
    stepNexts (AddressBook.start_iterator (showBook d) P) L =
      (⟨d, L * P, P, none⟩, .str "No more records.") := by
  obtain ⟨L', rfl⟩ : ∃ L', L = L' + 1 := ⟨L - 1, by omega⟩
  have h := c5_state_during d P L' (by simpa using hlast)
  show (stepNexts (AddressBook.start_iterator (showBook d) P) L').1.next_page = _
  rw [h]
  unfold AddressBook.next_page genNext
  simp only []
  rw [Nat.succ_mul] at hdone
  simp [hdone, Nat.succ_mul]

/-- A yielded slice is a take-after-drop of the item list. -/
theorem pageAt_eq (d : List (String × Record)) (cp ps : Nat) :
    pageAt d cp ps = ((bookItems d).drop cp).take ps := by
  unfold pageAt bookItems
  rw [List.map_take, List.map_drop]

/-- C5: over `M = d.length > 0` contacts with page size `P > 0` the session
(`show contacts P` then repeated `next`) yields exactly the
`ceil(M/P) = (M+P-1)/P` chunks of the item list in map-iteration order
(their concatenation is the item list), each full except possibly the
nonempty last; step `i` shows page `i` for `i < ceil(M/P)`, the single step
after the last page returns the sentinel (and clears the cursor), every
later step returns the distinct call-show-first message, and a fresh
`show contacts` behaves as on a pristine cursor regardless of the cursor
state. -/
theorem c5_pagination (d : List (String × Record)) (P : Nat)
    (hP : 0 < P) (hM : 0 < d.length) :
    (bookPages P d).length = (d.length + P - 1) / P ∧
    (bookPages P d).flatten = bookItems d ∧
    (∀ pg ∈ (bookPages P d).dropLast, pg.length = P) ∧
    (∀ pg, (bookPages P d).getLast? = some pg →
      0 < pg.length ∧ pg.length ≤ P) ∧
    (∀ i, i < (bookPages P d).length →
      observe d P i = .page ((bookPages P d).getD i [])) ∧
    observe d P (bookPages P d).length = .str "No more records." ∧
    (∀ i, (bookPages P d).length < i →
      observe d P i = .str "Error: call first comand -- show all") ∧
    (∀ bk : AddressBook, bk.data = d →
      AddressBook.start_iterator bk P =
        AddressBook.start_iterator (showBook d) P) := by
  have hlen : (bookItems d).length = d.length := List.length_map ..
  have hlt : ∀ k, k < (bookPages P d).length ↔ k * P < d.length := by
    intro k
    rw [bookPages,
      lt_chunks_length_fuel P hP (bookItems d).length (bookItems d) k le_rfl,
      hlen]
  have hL1 : 0 < (bookPages P d).length := by
    rw [hlt]
    simpa using hM
  refine ⟨?_, ?_, ?_, ?_, ?_, ?_, ?_, ?_⟩
  · rw [bookPages, chunks_length_fuel P hP _ _ le_rfl, hlen]
  · exact chunks_flatten_fuel P hP _ _ le_rfl
  · exact (chunks_sizes_fuel P hP _ _ le_rfl).1
  · exact (chunks_sizes_fuel P hP _ _ le_rfl).2
  · intro i hi
    have hiP : i * P < d.length := (hlt i).mp hi
    unfold observe
    rw [c5_state_during d P i hiP]
    show Res.page (pageAt d (i * P) P) = _
    congr 1
    rw [bookPages,
      chunks_getD_fuel P hP (bookItems d).length _ i le_rfl
        (by rw [hlen]; exact hiP),
      pageAt_eq]
  · unfold observe
    rw [c5_state_sentinel d P _ hL1 ((hlt _).mp (by omega))
      (fun hcon => absurd ((hlt _).mpr hcon) (lt_irrefl _))]
  · intro i hi
    obtain ⟨k, rfl⟩ : ∃ k, i = (bookPages P d).length + k :=
      ⟨i - (bookPages P d).length, by omega⟩
    unfold observe
    rw [stepNexts_add,
      c5_state_sentinel d P _ hL1 ((hlt _).mp (by omega))
        (fun hcon => absurd ((hlt _).mpr hcon) (lt_irrefl _)),
      stepNexts_dead _ _ rfl k (by omega)]
  · intro bk hbk
    rw [← hbk]
    exact start_iterator_fresh bk P

/-- C5 witness: three contacts, page size two — the step after the last
page returns the sentinel. -/
theorem c5_witness :
    observe c5Book 2 (bookPages 2 c5Book).length = .str "No more records." :=
  (c5_pagination c5Book 2 (by decide) (by decide)).2.2.2.2.2.1

/-- C10: on an empty book `show contacts` returns the sentinel immediately
while the stored (exhausted) generator stays set — the cursor is not yet
invalidated; the first subsequent `next` hits `StopIteration`, returns the
sentinel a second time and only then clears the cursor; from the second
`next` on, the distinct call-show-first message is returned. -/
theorem c10_empty_book (P : Nat) (i : Nat) :
    observe [] P 0 = .str "No more records." ∧
    (observeState [] P 0).iterator_instance = some .exhausted ∧
    observe [] P 1 = .str "No more records." ∧
    (observeState [] P 1).iterator_instance = none ∧
    (2 ≤ i → observe [] P i = .str "Error: call first comand -- show all") := by
  have hstart : AddressBook.start_iterator (showBook []) P =
      (⟨[], 0, P, some .exhausted⟩, .str "No more records.") := by
    unfold AddressBook.start_iterator genNext showBook
    simp
  have hstep1 : stepNexts (AddressBook.start_iterator (showBook []) P) 1 =
      (⟨[], 0, P, none⟩, .str "No more records.") := by
    show (stepNexts (AddressBook.start_iterator (showBook []) P) 0).1.next_page = _
    show (AddressBook.start_iterator (showBook []) P).1.next_page = _
    rw [hstart]
    rfl
  refine ⟨?_, ?_, ?_, ?_, ?_⟩
  · unfold observe
    rw [hstart]
    rfl
  · unfold observeState
    rw [hstart]
    rfl
  · unfold observe
    rw [hstep1]
  · unfold observeState
    rw [hstep1]
  · intro hi
    obtain ⟨k, rfl⟩ : ∃ k, i = 1 + k := ⟨i - 1, by omega⟩
    unfold observe
    rw [stepNexts_add, hstep1, stepNexts_dead _ _ rfl k (by omega)]

/-- C10 witness at page size 3 and a concrete later step. -/
theorem c10_witness :
    observe [] 3 0 = .str "No more records." ∧
    observe [] 3 2 = .str "Error: call first comand -- show all" :=
  ⟨(c10_empty_book 3 2).1, (c10_empty_book 3 2).2.2.2.2 (by decide)⟩

/-! ## Claim C9: the key/name invariant over command sequences -/

/-- The `input_error` wrapper never changes the state component. -/
theorem inputError_fst (r : AddressBook × Except PyErr Res) :
    (inputError r).1 = r.1 := by
  rcases r with ⟨bk, res⟩
  cases res with
  | ok v => rfl
  | error e => cases e <;> rfl

theorem dictSet_keysMatch {d : List (String × Record)} {k : String}
    {v : Record} (h : keysMatch d) (hv : v.name = k) :
    keysMatch (dictSet d k v) := by
  intro p hp
  unfold dictSet at hp
  by_cases hm : dictMember d k
  · rw [if_pos hm] at hp
    obtain ⟨q, hq, hpq⟩ := List.mem_map.mp hp
    by_cases hqk : q.1 = k
    · rw [if_pos hqk] at hpq
      rw [← hpq]
      exact hv
    · rw [if_neg hqk] at hpq
      rw [← hpq]
      exact h q hq
  · rw [if_neg hm] at hp
    rcases List.mem_append.mp hp with h1 | h1
    · exact h p h1
    · rcases List.mem_cons.mp h1 with h2 | h2
      · rw [h2]
        exact hv
      · cases h2
  
theorem dictDel_keysMatch {d : List (String × Record)} {k : String}
    (h : keysMatch d) : keysMatch (dictDel d k) :=
  fun p hp => h p ((List.eraseP_sublist d).subset hp)

theorem dictGet_name {d : List (String × Record)} {k : String} {r : Record}
    (h : keysMatch d) (hg : dictGet d k = some r) : r.name = k := by
  unfold dictGet at hg
  cases hf : d.find? (·.1 = k) with
  | none => rw [hf] at hg; cases hg
  | some q =>
    rw [hf] at hg
    cases hg
    have hqk : q.1 = k := by
      have := List.find?_some hf
      simpa using this
    rw [← hqk]
    exact h q (List.mem_of_find?_eq_some hf)

/-- A successful `Record.edit_phone` keeps the name. -/
theorem edit_phone_name {r r' : Record} {o n : String}
    (h : Record.edit_phone r o n = .ok r') : r'.name = r.name := by
  unfold Record.edit_phone at h
  cases he : editPhoneList r.phones o n with
  | ok ps => rw [he] at h; cases h; rfl
  | error e => rw [he] at h; cases h

/-- A successful `Record.add_phone` keeps the name. -/
theorem add_phone_name {r r' : Record} {n : String}
    (h : Record.add_phone r n = .ok r') : r'.name = r.name := by
  unfold Record.add_phone at h
  by_cases hv : Phone.is_valid n
  · rw [if_pos hv] at h
    cases h
    rfl
  · rw [if_neg hv] at h
    cases h

theorem add_record_keysMatch (bk : AddressBook) (r : Record)
    (h : keysMatch bk.data) : keysMatch (bk.add_record r).data := by
  unfold AddressBook.add_record
  exact dictSet_keysMatch h rfl

theorem add_record_str_keysMatch (bk : AddressBook) (s : String)
    (h : keysMatch bk.data) :
    keysMatch (inputError (bk.add_record_str s)).1.data := by
  rw [inputError_fst]
  unfold AddressBook.add_record_str
  split
  · split
    · exact h
    · split
      · exact h
      · split
        · split
          · exact add_record_keysMatch bk _ h
          · exact h
        · exact add_record_keysMatch bk _ h
  · exact h

theorem add_phone_keysMatch (bk : AddressBook) (s : String)
    (h : keysMatch bk.data) :
    keysMatch (inputError (bk.add_phone s)).1.data := by
  rw [inputError_fst]
  unfold AddressBook.add_phone
  split
  · split
    · split
      · split
        · split
          · rename_i x1 record hget x2 r2 hadd
            apply dictSet_keysMatch h
            rw [add_phone_name hadd, dictGet_name h hget]
          · exact h
        · exact h
      · exact h
    · exact h
  · exact h

theorem edit_phone_keysMatch (bk : AddressBook) (s : String)
    (h : keysMatch bk.data) :
    keysMatch (inputError (bk.edit_phone s)).1.data := by
  rw [inputError_fst]
  unfold AddressBook.edit_phone
  split
  · split
    · split
      · rename_i x1 record hget x2 r2 hedit
        apply dictSet_keysMatch h
        rw [edit_phone_name hedit, dictGet_name h hget]
      · exact h
    · exact h
  · exact h

theorem birthday_change_keysMatch (bk : AddressBook) (s : String)
    (h : keysMatch bk.data) :
    keysMatch (inputError (bk.birthday_change s)).1.data := by
  rw [inputError_fst]
  unfold AddressBook.birthday_change
  split
  · split
    · split
      · exact h
      · split
        · rename_i x1 bd x2 record hget
          apply dictSet_keysMatch h
          rw [show ∀ r : Record, ∀ b,
              ({ r with birthday := b } : Record).name = r.name from
              fun r b => rfl]
          exact dictGet_name h hget
        · exact h
    · exact h
  · exact h

theorem delete_keysMatch (bk : AddressBook) (name : String)
    (h : keysMatch bk.data) : keysMatch (bk.delete name).1.data := by
  unfold AddressBook.delete
  split
  · exact dictDel_keysMatch h
  · exact h

theorem days_keysMatch (bk : AddressBook) (name : String) (now : Datetime)
    (h : keysMatch bk.data) :
    keysMatch (inputError (bk.days_to_birthday name now)).1.data := by
  rw [inputError_fst]
  unfold AddressBook.days_to_birthday
  split
  · split
    · split <;> exact h
    · exact h
  · exact h

theorem start_iterator_data (bk : AddressBook) (n : Nat) :
    (bk.start_iterator n).1.data = bk.data := by
  by_cases hd : 0 < bk.data.length <;>
    simp [AddressBook.start_iterator, genNext, hd]

theorem next_page_data (bk : AddressBook) : bk.next_page.1.data = bk.data := by
  rcases bk with ⟨d, cp, ps, it⟩
  cases it with
  | none => rfl
  | some g =>
    cases g with
    | fresh n =>
      by_cases hd : 0 < d.length <;> simp [AddressBook.next_page, genNext, hd]
    | suspended =>
      by_cases hd : cp + ps < d.length <;>
        simp [AddressBook.next_page, genNext, hd]
    | exhausted => rfl

theorem applyOp_keysMatch (bk : AddressBook) (op : Op)
    (h : keysMatch bk.data) : keysMatch (applyOp bk op).data := by
  cases op with
  | addContact data => exact add_record_str_keysMatch bk data h
  | addPhone data => exact add_phone_keysMatch bk data h
  | editPhone data => exact edit_phone_keysMatch bk data h
  | setBirthday data => exact birthday_change_keysMatch bk data h
  | deleteContact name => exact delete_keysMatch bk name h
  | findContact _ => exact h
  | searchContacts _ => exact h
  | daysToBirthday name now => exact days_keysMatch bk name now h
  | showContacts n =>
    show keysMatch (bk.start_iterator n).1.data
    rw [start_iterator_data]
    exact h
  | nextPage =>
    show keysMatch bk.next_page.1.data
    rw [next_page_data]
    exact h

/-- C9: after any sequence of the claim's commands from a fresh book, every
key of the mapping equals the `name` of the `Record` it maps to (every
prefix of a sequence is itself a sequence, so the invariant holds at every
intermediate state as well). -/
theorem c9_key_name_invariant (ops : List Op) :
    keysMatch (runOps AddressBook.empty ops).data := by
  have hgen : ∀ (l : List Op) (bk : AddressBook),
      keysMatch bk.data → keysMatch (runOps bk l).data := by
    intro l
    induction l with
    | nil => intro bk h; exact h
    | cons op t ih =>
      intro bk h
      exact ih (applyOp bk op) (applyOp_keysMatch bk op h)
  exact hgen ops AddressBook.empty (fun p hp => absurd hp (List.not_mem_nil p))

/-- C9 witness: after a concrete `add contact`, the stored record's name
equals its key. -/
theorem c9_witness :
    ("Ann", (⟨"Ann", ["1234567890"], none⟩ : Record)).2.name = "Ann" := by
  have h := c9_key_name_invariant [Op.addContact "Ann 1234567890"]
  exact h ("Ann", ⟨"Ann", ["1234567890"], none⟩) (by decide)
